import Mathlib

/-!
Shallow embedding of the OutOfSight file-lifecycle core
(`app/models/files.py`, `app/core/aws_handler.py`, `app/core/files.py`,
`app/api/v1/endpoints/files.py`) and proofs about the claims of its
specification.

Conventions:
* Database rows are Lean structures; table contents are lists kept in
  insertion order, mirroring SQLAlchemy append semantics.
* Python `None` is `Option.none`; a Python exception escaping a function is
  `Except.error` with the exception message.
* Python strings are `String` where only equality matters and `List Char`
  where character-level splitting is performed.
* Timestamps (`created_on`) are `Nat`.
-/

/-- The `FileStatus` enum of `app/models/files.py` (its six members; the
catalog carries a name and a description, the description is irrelevant to
all claims and omitted). -/
inductive FileStatus
  | received
  | uploading
  | uploaded
  | processed
  | failed
  | deleted
deriving DecidableEq, Repr

/-- `status.value["name"]` for each enum member. -/
def FileStatus.pyName : FileStatus → String
  | .received => "received"
  | .uploading => "uploading"
  | .uploaded => "uploaded"
  | .processed => "processed"
  | .failed => "failed"
  | .deleted => "deleted"

/-- A row of the `files_status` catalog table (`FileStatusModel`). -/
structure FileStatusRow where
  id : Nat
  name : String
deriving DecidableEq, Repr

/-- A row of `files_status_history` (`FileStatusHistoryModel`): one status
event of one file.  Insertion order is the position in `DB.history`. -/
structure StatusEvent where
  file_id : Nat
  status_id : Nat
  created_on : Nat
deriving DecidableEq, Repr, Inhabited

/-- A row of the `files` table (`FilesModel`); `path` is the nullable
object-store locator. -/
structure FileRecord where
  id : Nat
  user_id : Nat
  path : Option String
  filename : String
deriving DecidableEq, Repr

/-- The database state the file endpoints touch. -/
structure DB where
  catalog : List FileStatusRow
  history : List StatusEvent
  files : List FileRecord
deriving DecidableEq, Repr

/-- Decidable equality for `Except`, so runs of the embedded endpoints can
be evaluated on concrete inputs. -/
instance {ε α : Type} [DecidableEq ε] [DecidableEq α] : DecidableEq (Except ε α) := fun a b =>
  match a, b with
  | .error e1, .error e2 =>
    if h : e1 = e2 then .isTrue (congrArg Except.error h)
    else .isFalse (fun hc => h (Except.error.inj hc))
  | .ok a1, .ok a2 =>
    if h : a1 = a2 then .isTrue (congrArg Except.ok h)
    else .isFalse (fun hc => h (Except.ok.inj hc))
  | .error _, .ok _ => .isFalse (fun hc => Except.noConfusion hc)
  | .ok _, .error _ => .isFalse (fun hc => Except.noConfusion hc)


/-- SQLAlchemy `one_or_none`: `none` on no row, the row if unique, and a
`MultipleResultsFound` exception otherwise. -/
def one_or_none {α : Type} : List α → Except String (Option α)
  | [] => .ok none
  | [a] => .ok (some a)
  | _ => .error "MultipleResultsFound"

/-- `FileStatusModel.find_by_name` (the `name` column carries a unique
constraint, so `find?` models `unique().one_or_none()`). -/
def find_by_name (name : String) (db : DB) : Option FileStatusRow :=
  db.catalog.find? (fun r => r.name == name)

/-- `FileStatusHistoryModel.find_by_fileid_and_statusid`. -/
def find_by_fileid_and_statusid (fid sid : Nat) (db : DB) :
    Except String (Option StatusEvent) :=
  one_or_none (db.history.filter (fun e => e.file_id == fid && e.status_id == sid))

/-- Number of history rows for a given (file id, status id) pair. -/
def pairCount (fid sid : Nat) (db : DB) : Nat :=
  (db.history.filter (fun e => e.file_id == fid && e.status_id == sid)).length

/-- `FilesModel.add_status`: look the status name up in the catalog (silent
return if absent), return the existing history row for the pair if any,
otherwise insert a new row stamped `now`. -/
def add_status (fid : Nat) (status : FileStatus) (now : Nat) (db : DB) :
    Except String (Option StatusEvent × DB) :=
  match find_by_name status.pyName db with
  | none => .ok (none, db)
  | some row =>
    match find_by_fileid_and_statusid fid row.id db with
    | .error e => .error e
    | .ok (some ev) => .ok (some ev, db)
    | .ok none =>
      .ok (some ⟨fid, row.id, now⟩,
           { db with history := db.history ++ [⟨fid, row.id, now⟩] })

/-- One comparison step of Python `max`: a later element replaces the
accumulator only when its key is strictly greater. -/
def pyMaxStep (key : StatusEvent → Nat) (acc y : StatusEvent) : StatusEvent :=
  if key y > key acc then y else acc

/-- Python `max(xs, key=key, default=None)`: the FIRST element attaining the
maximal key. -/
def pyMax (key : StatusEvent → Nat) : List StatusEvent → Option StatusEvent
  | [] => none
  | x :: xs => some (xs.foldl (pyMaxStep key) x)

/-- The `status_history` relationship of one file: its events in insertion
order. -/
def fileEvents (fid : Nat) (db : DB) : List StatusEvent :=
  db.history.filter (fun e => e.file_id == fid)

/-- `event.status.name`: the catalog name behind a history row. -/
def statusNameOf (db : DB) (sid : Nat) : Option String :=
  (db.catalog.find? (fun r => r.id == sid)).map (fun r => r.name)

/-- The `FilesModel.last_status` hybrid property: `max` of the status
history by `created_on`, `None` when the history is empty. -/
def last_status (fid : Nat) (db : DB) : Option String :=
  match pyMax (fun e => e.created_on) (fileEvents fid db) with
  | none => none
  | some e => statusNameOf db e.status_id

/-- The status catalog as seeded at startup from the `FileStatus` enum
members (`initialize_default`). -/
def seededCatalog : List FileStatusRow :=
  [⟨1, "received"⟩, ⟨2, "uploading"⟩, ⟨3, "uploaded"⟩,
   ⟨4, "processed"⟩, ⟨5, "failed"⟩, ⟨6, "deleted"⟩]

/-- Concrete database for the C7 counterexample: one file (id 5) with two
events sharing the latest timestamp, `uploaded` inserted before `failed`. -/
def tieDB : DB :=
  { catalog := seededCatalog
    history := [⟨5, 3, 7⟩, ⟨5, 5, 7⟩]
    files := [⟨5, 2, none, "a.txt"⟩] }

/-- Python `str.startswith`: `strStartsWith s pre` is true when `pre` is a
character-prefix of `s`. -/
def strStartsWith : List Char → List Char → Bool
  | _, [] => true
  | [], _ :: _ => false
  | c :: cs, p :: ps => c == p && strStartsWith cs ps

/-- Python `s.split(sep, 1)`: the part before the first separator, and
`some` rest after it (or `none` when the separator does not occur, in which
case Python returns a one-element list and index `[1]` raises). -/
def splitFirstAux (sep : Char) (acc : List Char) : List Char → List Char × Option (List Char)
  | [] => (acc.reverse, none)
  | c :: rest =>
    if c == sep then (acc.reverse, some rest) else splitFirstAux sep (c :: acc) rest

/-- Python `s.split("/")[-1]`: the suffix after the last slash. -/
def baseNameAux (acc : List Char) : List Char → List Char
  | [] => acc.reverse
  | c :: rest => if c == '/' then baseNameAux [] rest else baseNameAux (c :: acc) rest

/-- `S3Handler.extract_s3_key`: strip a leading `s3://`, split the rest on
the first `/` into bucket and key (Python indexes `parts[1]`, which raises
`IndexError` when no `/` is present), and take the key's base name.  A
locator without the scheme is a bare key with no bucket. -/
def extract_s3_key (uri : List Char) :
    Except String (Option (List Char) × List Char × List Char) :=
  if strStartsWith uri ("s3://".toList) then
    match splitFirstAux '/' [] (uri.drop 5) with
    | (b, some k) => .ok (some b, k, baseNameAux [] k)
    | (_, none) => .error "IndexError"
  else .ok (none, uri, baseNameAux [] uri)

/-- An archive entry name, as a path: absolute flag plus components (a
component may be `..`, `.` or empty). -/
structure EntryName where
  isAbs : Bool
  comps : List String
deriving DecidableEq, Repr

/-- `os.path.join(outDir, entry)`: an absolute entry replaces the base. -/
def joinPath (outDir : List String) (e : EntryName) : List String :=
  if e.isAbs then e.comps else outDir ++ e.comps

/-- `os.path.realpath` on an absolute, symlink-free path: drop `.` and
empty components and let `..` pop the previous component (at the root it
stays at the root). -/
def normalizeComps (cs : List String) : List String :=
  cs.foldl (fun acc c =>
    if c == "." || c == "" then acc
    else if c == ".." then acc.dropLast
    else acc ++ [c]) []

/-- Render an absolute path from its components (`/a/b`), so that the
string-prefix check of the source can be stated on characters. -/
def renderPath (cs : List String) : List Char :=
  cs.foldl (fun acc c => acc ++ '/' :: c.toList) []

/-- `FileProcessor.is_safe_path` (with `follow_symlinks=True` and no
symlinks): `os.path.realpath(path).startswith(basedir)`, the base directory
being passed already canonical. -/
def is_safe_path (basedir p : List String) : Bool :=
  strStartsWith (renderPath (normalizeComps p)) (renderPath basedir)

/-- `FileProcessor._decompress_and_decrypt`: walk `zf.namelist()` and raise
`ValueError("Potential Zip Slip attack detected")` at the first entry whose
joined path fails `is_safe_path`; only when every entry passed does
`zf.extractall(output_folder)` run (modelled as appending every entry's
resolved path to the filesystem `fs`; a wrong password makes `extractall`
raise instead).  Returns the output folder and the updated filesystem. -/
def decompress_and_decrypt (password_ok : Bool) (entries : List EntryName)
    (output_folder : List String) (fs : List (List String)) :
    Except String (List String) × List (List String) :=
  match entries.find? (fun e => !(is_safe_path output_folder (joinPath output_folder e))) with
  | some _ => (.error "Potential Zip Slip attack detected", fs)
  | none =>
    if password_ok then
      (.ok output_folder, fs ++ entries.map (fun e => normalizeComps (joinPath output_folder e)))
    else (.error "Bad password", fs)

/-- Calls made against the object store during a multipart upload. -/
inductive S3Op
  | createMultipart (key : String)
  | uploadPart (key : String) (partNumber : Nat) (uploadId : Nat)
  | completeMultipart (key : String) (uploadId : Nat) (partNumbers : List Nat)
  | abortMultipart (key : String) (uploadId : Nat)
deriving DecidableEq, Repr

/-- `S3Handler.CHUNK_SIZE_BYTES`: 8 MiB. -/
def CHUNK_SIZE_BYTES : Nat := 8 * 1024 * 1024

/-- Sizes returned by the successive `file_up.read(CHUNK_SIZE_BYTES)` calls
of the `while chunk := await file_up.read(...)` loop on a stream of `size`
bytes: ⌈size/chunk⌉ reads, each the full chunk except a shorter final
remainder (closed form of the read loop, kept structural so proofs can
evaluate it). -/
def chunkSizes (chunk size : Nat) : List Nat :=
  (List.range ((size + chunk - 1) / chunk)).map (fun i => min chunk (size - i * chunk))

/-- The part-upload loop of `S3Handler.upload_to_s3`: upload each chunk as
part `n`, `n+1`, ..., collecting part numbers in order, stopping at the
first part whose upload raises (`partOk` says which part calls succeed).
Returns (collected part numbers, upload_part calls made, loop completed). -/
def runParts (key : String) (uploadId : Nat) (partOk : Nat → Bool) :
    List Nat → Nat → List Nat × List S3Op × Bool
  | [], _ => ([], [], true)
  | _ :: rest, n =>
    if partOk n then
      let r := runParts key uploadId partOk rest (n + 1)
      (n :: r.1, S3Op.uploadPart key n uploadId :: r.2.1, r.2.2)
    else ([], [S3Op.uploadPart key n uploadId], false)

/-- Outcome of one `upload_to_s3` run: the returned object path (Python
returns `None` on any failure) and the object-store calls made. -/
structure UploadRun where
  result : Option String
  ops : List S3Op
deriving DecidableEq, Repr

/-- `S3Handler.upload_to_s3`.  The Python function catches every exception:
a part failure triggers `abort_multipart_upload` and the function falls
through returning `None`; a failing `create_multipart_upload` makes the
inner except block itself raise (`upload_id` is unbound), which the outer
except swallows; a failing completion is also aborted and swallowed.  The
`Except` wrapper records that no exception ever escapes: every branch is
`.ok`. -/
def upload_to_s3 (bucket : String) (user_id : Nat) (filename : String)
    (size uploadId : Nat) (createOk : Bool) (partOk : Nat → Bool) (completeOk : Bool) :
    Except String UploadRun :=
  let file_key := toString user_id ++ "/" ++ filename
  if createOk then
    let r := runParts file_key uploadId partOk (chunkSizes CHUNK_SIZE_BYTES size) 1
    if r.2.2 then
      if completeOk then
        .ok ⟨some ("s3://" ++ bucket ++ "/" ++ file_key),
             S3Op.createMultipart file_key :: r.2.1 ++
               [S3Op.completeMultipart file_key uploadId r.1]⟩
      else
        .ok ⟨none,
             S3Op.createMultipart file_key :: r.2.1 ++
               [S3Op.completeMultipart file_key uploadId r.1,
                S3Op.abortMultipart file_key uploadId]⟩
    else
      .ok ⟨none,
           S3Op.createMultipart file_key :: r.2.1 ++
             [S3Op.abortMultipart file_key uploadId]⟩
  else
    .ok ⟨none, [S3Op.createMultipart file_key]⟩

/-- `FilesModel.find_by_id`. -/
def find_by_id (fid : Nat) (db : DB) : Option FileRecord :=
  db.files.find? (fun f => f.id == fid)

/-- Setting `file_obj.path = s3_key` followed by `db.commit()`. -/
def set_path (fid : Nat) (p : String) (files : List FileRecord) : List FileRecord :=
  files.map (fun f => if f.id == fid then { f with path := some p } else f)

/-- `S3Handler.handle_file_upload`: record `uploading`, run the upload,
re-fetch the record, then record `failed` (leaving `path` alone) when the
upload returned `None`, else record `uploaded` and set `path` to the
returned object path.  A `None` from `find_by_id` would make the attribute
access raise. -/
def handle_file_upload (fid size uploadId : Nat) (createOk : Bool) (partOk : Nat → Bool)
    (completeOk : Bool) (bucket up_filename : String) (now1 now2 : Nat) (db : DB) :
    Except String (DB × List S3Op × Option String) :=
  match find_by_id fid db with
  | none => .error "AttributeError"
  | some file_obj =>
    match add_status fid FileStatus.uploading now1 db with
    | .error e => .error e
    | .ok (_, db1) =>
      match upload_to_s3 bucket file_obj.user_id
          (toString file_obj.id ++ "/" ++ up_filename) size uploadId
          createOk partOk completeOk with
      | .error e => .error e
      | .ok run =>
        match find_by_id fid db1 with
        | none => .error "AttributeError"
        | some _ =>
          match run.result with
          | none =>
            match add_status fid FileStatus.failed now2 db1 with
            | .error e => .error e
            | .ok (_, db2) => .ok (db2, run.ops, none)
          | some s3k =>
            match add_status fid FileStatus.uploaded now2 db1 with
            | .error e => .error e
            | .ok (_, db2) =>
              .ok ({ db2 with files := set_path fid s3k db2.files }, run.ops, some s3k)

/-- A SQLAlchemy result as the endpoints see it: a scalar (possibly `None`)
from `find_by_id`, or a row list from the filtering query (the Python
method returns `scalars().all()` there). -/
inductive QueryResult
  | scalar (f : Option FileRecord)
  | rows (l : List FileRecord)
deriving DecidableEq, Repr

/-- Python truthiness of a query result (`if not obj`). -/
def QueryResult.truthy : QueryResult → Bool
  | .scalar f => f.isSome
  | .rows l => !l.isEmpty

/-- The join of `find_by_id_removing_deleted_or_failed`: one row (the file
itself) per history event of the file whose status name is among `names` —
the filter KEEPS files having such events instead of excluding them. -/
def removingRows (fid : Nat) (db : DB) (names : List String) : List FileRecord :=
  match find_by_id fid db with
  | none => []
  | some f =>
    (db.history.filter (fun e =>
      e.file_id == fid &&
        (match statusNameOf db e.status_id with
         | some n => names.contains n
         | none => false))).map (fun _ => f)

/-- `FilesModel.find_by_id_removing_deleted_or_failed`: with any remove
flag set it runs the joined filter query (returning a LIST of rows); with
both flags clear it degenerates to plain `find_by_id`. -/
def find_by_id_removing_deleted_or_failed (fid : Nat) (db : DB)
    (remove_deleted remove_failed : Bool) : QueryResult :=
  if remove_deleted && remove_failed then .rows (removingRows fid db ["deleted", "failed"])
  else if remove_deleted then .rows (removingRows fid db ["deleted"])
  else if remove_failed then .rows (removingRows fid db ["failed"])
  else .scalar (find_by_id fid db)

/-- Client-visible errors of the file endpoints. -/
inductive ApiError
  | notFound
  | forbidden
  | internalError
deriving DecidableEq, Repr

/-- `check_file_and_user` of `endpoints/files.py`: NOTE the inverted
ternary — when a remove flag is set it calls plain `find_by_id`, and only
when both are clear does it call the removing query (which then itself
degenerates to `find_by_id`).  404 when falsy, 403 on ownership mismatch.
The non-empty `rows` case would raise in Python (a list has no `user_id`)
but is unreachable from this branching. -/
def check_file_and_user (fid uid : Nat) (db : DB)
    (remove_deleted remove_failed : Bool) : Except ApiError FileRecord :=
  let obj :=
    if remove_deleted || remove_failed then QueryResult.scalar (find_by_id fid db)
    else find_by_id_removing_deleted_or_failed fid db remove_deleted remove_failed
  match obj with
  | .scalar none => .error .notFound
  | .scalar (some f) => if f.user_id != uid then .error .forbidden else .ok f
  | .rows [] => .error .notFound
  | .rows (_ :: _) => .error .internalError

/-- `S3Handler.delete_from_s3`: parse the locator (an `IndexError` from
`extract_s3_key` propagates), return `False` when no bucket, otherwise
issue the object-store delete (counted even when it fails), fetch the
record and record `deleted`; any exception inside the `try` yields
`False`. -/
def delete_from_s3 (s3ok : Bool) (file_key : List Char) (fid now : Nat) (db : DB) :
    Except String (Bool × DB × Nat) :=
  match extract_s3_key file_key with
  | .error e => .error e
  | .ok (none, _, _) => .ok (false, db, 0)
  | .ok (some _, _, _) =>
    if s3ok then
      match find_by_id fid db with
      | none => .ok (false, db, 1)
      | some _ =>
        match add_status fid FileStatus.deleted now db with
        | .error _ => .ok (false, db, 1)
        | .ok (_, db1) => .ok (true, db1, 1)
    else .ok (false, db, 1)

/-- Outcome of one `delete_file` request: response, database, and number of
calls made to the object-store delete endpoint. -/
structure DeleteRun where
  result : Except ApiError Unit
  db : DB
  s3_delete_calls : Nat
deriving Repr

/-- The `delete_file` endpoint: look the file up (with `remove_deleted=True,
remove_failed=False`), short-circuit to recording `deleted` when the
current status is `failed` (no object-store call), otherwise delegate to
`delete_from_s3` and turn `False` into a 500.  A `None` path would raise
inside `extract_s3_key` (`AttributeError`). -/
def delete_file (s3ok : Bool) (fid uid now : Nat) (db : DB) : Except String DeleteRun :=
  match check_file_and_user fid uid db true false with
  | .error e => .ok ⟨.error e, db, 0⟩
  | .ok obj =>
    if last_status obj.id db == some "failed" then
      match add_status obj.id FileStatus.deleted now db with
      | .error e => .error e
      | .ok (_, db1) => .ok ⟨.ok (), db1, 0⟩
    else
      match obj.path with
      | none => .error "AttributeError"
      | some p =>
        match delete_from_s3 s3ok p.toList obj.id now db with
        | .error e => .error e
        | .ok (true, db1, n) => .ok ⟨.ok (), db1, n⟩
        | .ok (false, db1, n) => .ok ⟨.error .internalError, db1, n⟩

/-- Concrete database for C1: file 1 (owner 7) has a `received` event and a
later `deleted` event, so its current status is `deleted`. -/
def deletedFileDB : DB :=
  { catalog := seededCatalog
    history := [⟨1, 1, 0⟩, ⟨1, 6, 5⟩]
    files := [⟨1, 7, some "s3://bkt/7/1/a.txt", "a.txt"⟩] }


/-- C10: an unseeded status name makes `add_status` a silent no-op. -/
theorem add_status_unseeded_is_noop (fid now : Nat) (st : FileStatus) (db : DB)
    (h : find_by_name st.pyName db = none) :
    add_status fid st now db = .ok (none, db) := by
  unfold add_status
  rw [h]

/-- C10 witness: recording `processed` against a catalog that was never
seeded with it inserts nothing and does not raise, so a freshly created
file's history stays empty. -/
theorem add_status_unseeded_is_noop_witness :
    find_by_name FileStatus.processed.pyName
        ⟨[⟨1, "received"⟩], [], [⟨1, 2, none, "a.txt"⟩]⟩ = none ∧
    add_status 1 FileStatus.processed 3
        ⟨[⟨1, "received"⟩], [], [⟨1, 2, none, "a.txt"⟩]⟩ =
      .ok (none, ⟨[⟨1, "received"⟩], [], [⟨1, 2, none, "a.txt"⟩]⟩) :=
  ⟨by decide,
   add_status_unseeded_is_noop 1 3 FileStatus.processed
     ⟨[⟨1, "received"⟩], [], [⟨1, 2, none, "a.txt"⟩]⟩ (by decide)⟩

/-- C5: recording the same (file id, status) pair twice is idempotent: the
first call yields an event, the second call returns that same event and
leaves the database untouched, and the history holds exactly one row for
the pair. -/
theorem add_status_idempotent (fid now1 now2 : Nat) (st : FileStatus) (db : DB)
    (row : FileStatusRow)
    (hrow : find_by_name st.pyName db = some row)
    (hcount : pairCount fid row.id db ≤ 1) :
    ∃ ev db1,
      add_status fid st now1 db = .ok (some ev, db1) ∧
      add_status fid st now2 db1 = .ok (some ev, db1) ∧
      pairCount fid row.id db1 = 1 := by
  unfold pairCount at hcount
  rcases hl : db.history.filter (fun e => e.file_id == fid && e.status_id == row.id)
    with _ | ⟨e, _ | ⟨e2, tl2⟩⟩
  · -- no existing row: the first call inserts, the second returns the insert
    refine ⟨⟨fid, row.id, now1⟩,
      { db with history := db.history ++ [⟨fid, row.id, now1⟩] }, ?_, ?_, ?_⟩
    · simp only [add_status, hrow, find_by_fileid_and_statusid, hl, one_or_none]
    · have hcat : find_by_name st.pyName
          { db with history := db.history ++ [⟨fid, row.id, now1⟩] } = some row := hrow
      have hfil : ({ db with history := db.history ++ [⟨fid, row.id, now1⟩] } : DB).history.filter
          (fun e => e.file_id == fid && e.status_id == row.id) = [⟨fid, row.id, now1⟩] := by
        show (db.history ++ [(⟨fid, row.id, now1⟩ : StatusEvent)]).filter _ = _
        rw [List.filter_append, hl]
        simp
      simp only [add_status, hcat, find_by_fileid_and_statusid, hfil, one_or_none]
    · unfold pairCount
      show ((db.history ++ [(⟨fid, row.id, now1⟩ : StatusEvent)]).filter _).length = 1
      rw [List.filter_append, hl]
      simp
  · -- the pair is already present: both calls return the existing row
    refine ⟨e, db, ?_, ?_, ?_⟩
    · simp only [add_status, hrow, find_by_fileid_and_statusid, hl, one_or_none]
    · simp only [add_status, hrow, find_by_fileid_and_statusid, hl, one_or_none]
    · simp [pairCount, hl]
  · rw [hl] at hcount
    simp at hcount

/-- C5 witness: recording `received` twice for file 1 against the seeded
catalog yields one event and one history row. -/
theorem add_status_idempotent_witness :
    find_by_name FileStatus.received.pyName
        ⟨seededCatalog, [], [⟨1, 2, none, "a.txt"⟩]⟩ = some ⟨1, "received"⟩ ∧
    pairCount 1 1 ⟨seededCatalog, [], [⟨1, 2, none, "a.txt"⟩]⟩ ≤ 1 ∧
    ∃ ev db1,
      add_status 1 FileStatus.received 10
          ⟨seededCatalog, [], [⟨1, 2, none, "a.txt"⟩]⟩ = .ok (some ev, db1) ∧
      add_status 1 FileStatus.received 20 db1 = .ok (some ev, db1) ∧
      pairCount 1 1 db1 = 1 :=
  ⟨by decide, by decide,
   add_status_idempotent 1 10 20 FileStatus.received
     ⟨seededCatalog, [], [⟨1, 2, none, "a.txt"⟩]⟩ ⟨1, "received"⟩
     (by decide) (by decide)⟩

/-- C7 counterexample: in `tieDB` the two events of file 5 share the latest
timestamp; `uploaded` was inserted first and `failed` second, yet
`last_status` answers `uploaded` — the EARLIER-inserted event wins the tie,
refuting the claim that the later-inserted one does. -/
theorem last_status_tie_takes_earlier_insert :
    last_status 5 tieDB = some "uploaded" ∧ last_status 5 tieDB ≠ some "failed" := by
  decide

/-- Python `max` by key over a non-empty fold: the starting list decomposes
around the returned element, every element's key is bounded by its key, and
every element strictly before it has a strictly smaller key (so the result
is the first element attaining the maximum). -/
theorem pyFoldMax_spec (key : StatusEvent → Nat) (xs : List StatusEvent) :
    ∀ x : StatusEvent,
      ∃ l1 l2,
        x :: xs = l1 ++ (xs.foldl (pyMaxStep key) x) :: l2 ∧
        (∀ y ∈ x :: xs, key y ≤ key (xs.foldl (pyMaxStep key) x)) ∧
        (∀ y ∈ l1, key y < key (xs.foldl (pyMaxStep key) x)) := by
  induction xs with
  | nil =>
    intro x
    refine ⟨[], [], rfl, ?_, by simp⟩
    intro y hy
    simp at hy
    subst hy
    exact le_refl _
  | cons y ys ih =>
    intro x
    by_cases hxy : key y > key x
    · have hstep : (y :: ys).foldl (pyMaxStep key) x = ys.foldl (pyMaxStep key) y := by
        simp [List.foldl, pyMaxStep, hxy]
      obtain ⟨l1, l2, hdec, hub, hlt⟩ := ih y
      have hyr : key y ≤ key (ys.foldl (pyMaxStep key) y) := hub y (by simp)
      have hxr : key x < key (ys.foldl (pyMaxStep key) y) := lt_of_lt_of_le hxy hyr
      refine ⟨x :: l1, l2, ?_, ?_, ?_⟩
      · rw [hstep, List.cons_append, ← hdec]
      · intro z hz
        rw [hstep]
        rcases List.mem_cons.mp hz with hzx | hz2
        · subst hzx; exact le_of_lt hxr
        · exact hub z hz2
      · intro z hz
        rw [hstep]
        rcases List.mem_cons.mp hz with hzx | hz2
        · subst hzx; exact hxr
        · exact hlt z hz2
    · have hstep : (y :: ys).foldl (pyMaxStep key) x = ys.foldl (pyMaxStep key) x := by
        simp [List.foldl, pyMaxStep, hxy]
      have hyx : key y ≤ key x := le_of_not_lt hxy
      obtain ⟨l1, l2, hdec, hub, hlt⟩ := ih x
      have hxr : key x ≤ key (ys.foldl (pyMaxStep key) x) := hub x (by simp)
      rcases l1 with _ | ⟨a, l1t⟩
      · -- the maximum is x itself, sitting at the head
        have hx : x = ys.foldl (pyMaxStep key) x := by
          simpa using congrArg (fun l => l.headI) hdec
        have hys : ys = l2 := by
          simpa using congrArg (fun l => l.tail) hdec
        refine ⟨[], y :: l2, ?_, ?_, by simp⟩
        · rw [hstep, List.nil_append, ← hx, hys]
        · intro z hz
          rw [hstep]
          rcases List.mem_cons.mp hz with hzx | hz2
          · subst hzx; exact hxr
          · rcases List.mem_cons.mp hz2 with hzy | hz3
            · subst hzy; exact le_trans hyx hxr
            · exact hub z (by simp [hz3])
      · -- the maximum sits strictly after the head, and x equals that head
        have hxa : x = a := by
          simpa using congrArg (fun l => l.headI) hdec
        have hys : ys = l1t ++ (ys.foldl (pyMaxStep key) x) :: l2 := by
          simpa using congrArg (fun l => l.tail) hdec
        have hxlt : key x < key (ys.foldl (pyMaxStep key) x) := by
          have ha := hlt a (by simp)
          rw [← hxa] at ha
          exact ha
        refine ⟨x :: y :: l1t, l2, ?_, ?_, ?_⟩
        · rw [hstep]
          show x :: y :: ys = x :: y :: (l1t ++ (ys.foldl (pyMaxStep key) x) :: l2)
          rw [← hys]
        · intro z hz
          rw [hstep]
          rcases List.mem_cons.mp hz with hzx | hz2
          · subst hzx; exact le_of_lt hxlt
          · rcases List.mem_cons.mp hz2 with hzy | hz3
            · subst hzy; exact le_trans hyx (le_of_lt hxlt)
            · exact hub z (by simp [hz3])
        · intro z hz
          rw [hstep]
          rcases List.mem_cons.mp hz with hzx | hz2
          · subst hzx; exact hxlt
          · rcases List.mem_cons.mp hz2 with hzy | hz3
            · subst hzy; exact lt_of_le_of_lt hyx hxlt
            · exact hlt z (by simp [hz3])

/-- C7 (amended): with an empty history the current status is none; with a
non-empty history the current status is the status of the FIRST event
attaining the latest timestamp — ties are broken in favour of the
earlier-inserted event, not the later one. -/
theorem last_status_amended (fid : Nat) (db : DB) :
    (fileEvents fid db = [] → last_status fid db = none) ∧
    (fileEvents fid db ≠ [] →
      ∃ l1 e l2,
        fileEvents fid db = l1 ++ e :: l2 ∧
        (∀ e2 ∈ fileEvents fid db, e2.created_on ≤ e.created_on) ∧
        (∀ e1 ∈ l1, e1.created_on < e.created_on) ∧
        last_status fid db = statusNameOf db e.status_id) := by
  constructor
  · intro hnil
    unfold last_status
    rw [hnil]
    rfl
  · intro hne
    rcases hl : fileEvents fid db with _ | ⟨x, xs⟩
    · exact absurd hl hne
    · obtain ⟨l1, l2, hdec, hub, hlt⟩ := pyFoldMax_spec (fun e => e.created_on) xs x
      refine ⟨l1, xs.foldl (pyMaxStep fun e => e.created_on) x, l2, hdec, ?_, hlt, ?_⟩
      · intro e2 he2
        exact hub e2 he2
      · simp only [last_status, pyMax, hl]

/-- C7 witness: instantiating the amended statement on `tieDB`, whose file 5
has the non-empty tied history. -/
theorem last_status_amended_witness :
    fileEvents 5 tieDB ≠ [] ∧
    (∃ l1 e l2,
      fileEvents 5 tieDB = l1 ++ e :: l2 ∧
      (∀ e2 ∈ fileEvents 5 tieDB, e2.created_on ≤ e.created_on) ∧
      (∀ e1 ∈ l1, e1.created_on < e.created_on) ∧
      last_status 5 tieDB = statusNameOf tieDB e.status_id) :=
  ⟨by decide, (last_status_amended 5 tieDB).2 (by decide)⟩

/-- C1: the code contradicts the claim — in `deletedFileDB` file 1's
current status is `deleted`, yet the download-path lookup
(`check_file_and_user` with `remove_deleted=True, remove_failed=True`)
returns the file instead of rejecting with 404, because the ternary picks
plain `find_by_id` exactly when a remove flag is set; moreover the
"removing" query itself SELECTS the deleted file rather than excluding
it. -/
theorem download_lookup_returns_deleted_file :
    last_status 1 deletedFileDB = some "deleted" ∧
    check_file_and_user 1 7 deletedFileDB true true =
      .ok ⟨1, 7, some "s3://bkt/7/1/a.txt", "a.txt"⟩ ∧
    find_by_id_removing_deleted_or_failed 1 deletedFileDB true true =
      .rows [⟨1, 7, some "s3://bkt/7/1/a.txt", "a.txt"⟩] := by
  decide

/-- C2: an archive containing any entry whose resolved extraction path does
not have the output directory as a prefix makes `decrypt` abort with the
zip-slip error, and the filesystem is returned unchanged — no entry is
extracted, the name check covering every entry before `extractall` runs. -/
theorem decrypt_aborts_on_unsafe_entry (password_ok : Bool) (entries : List EntryName)
    (out : List String) (fs : List (List String)) (e : EntryName)
    (he : e ∈ entries) (hbad : is_safe_path out (joinPath out e) = false) :
    decompress_and_decrypt password_ok entries out fs =
      (.error "Potential Zip Slip attack detected", fs) := by
  unfold decompress_and_decrypt
  rcases hfind : entries.find? (fun x => !(is_safe_path out (joinPath out x))) with _ | y
  · exfalso
    have hall := List.find?_eq_none.mp hfind e he
    simp [hbad] at hall
  · rfl

/-- C2 witness: the spec's own example — an entry named `../../evil.txt`
aborts extraction of the archive and leaves the output directory's
filesystem unchanged. -/
theorem decrypt_aborts_on_unsafe_entry_witness :
    (⟨false, ["..", "..", "evil.txt"]⟩ : EntryName) ∈
        [(⟨false, ["..", "..", "evil.txt"]⟩ : EntryName)] ∧
    is_safe_path ["tmp", "out"]
        (joinPath ["tmp", "out"] ⟨false, ["..", "..", "evil.txt"]⟩) = false ∧
    decompress_and_decrypt true [⟨false, ["..", "..", "evil.txt"]⟩]
        ["tmp", "out"] [["tmp", "out", "old.txt"]] =
      (.error "Potential Zip Slip attack detected", [["tmp", "out", "old.txt"]]) :=
  ⟨by decide, by decide,
   decrypt_aborts_on_unsafe_entry true [⟨false, ["..", "..", "evil.txt"]⟩]
     ["tmp", "out"] [["tmp", "out", "old.txt"]] ⟨false, ["..", "..", "evil.txt"]⟩
     (by decide) (by decide)⟩

/-- C8 counterexample: parsing is NOT total — a locator that starts with
the scheme but has no `/` after it makes `extract_s3_key` raise
`IndexError` (`parts[1]` on a one-element split), refuting "parsing never
raises for any input string". -/
theorem extract_s3_key_raises_without_slash :
    extract_s3_key ("s3://bucket".toList) = .error "IndexError" := by
  decide

/-- Behaviour of the first-split helper when the separator is absent: the
whole input comes back with no second part. -/
theorem splitFirstAux_not_mem (sep : Char) (l : List Char) :
    ∀ acc, sep ∉ l → splitFirstAux sep acc l = (acc.reverse ++ l, none) := by
  induction l with
  | nil =>
    intro acc _
    simp [splitFirstAux]
  | cons c rest ih =>
    intro acc h
    simp only [List.mem_cons, not_or] at h
    have hc : (c == sep) = false :=
      beq_eq_false_iff_ne.mpr (fun hcs => h.1 hcs.symm)
    rw [splitFirstAux, hc]
    simp only [if_false, Bool.false_eq_true]
    rw [ih (c :: acc) h.2]
    simp

/-- Behaviour of the first-split helper when the separator occurs: the part
before the first separator and the part after it. -/
theorem splitFirstAux_mem (sep : Char) (l : List Char) :
    ∀ acc, sep ∈ l →
      splitFirstAux sep acc l =
        (acc.reverse ++ l.takeWhile (fun c => !(c == sep)),
         some ((l.dropWhile (fun c => !(c == sep))).drop 1)) := by
  induction l with
  | nil =>
    intro acc h
    simp at h
  | cons c rest ih =>
    intro acc h
    by_cases hc : c = sep
    · subst hc
      rw [splitFirstAux]
      simp [List.takeWhile, List.dropWhile]
    · have hcb : (c == sep) = false := beq_eq_false_iff_ne.mpr hc
      have hmem : sep ∈ rest := by
        rcases List.mem_cons.mp h with h1 | h1
        · exact absurd h1.symm hc
        · exact h1
      rw [splitFirstAux, hcb]
      simp only [if_false, Bool.false_eq_true]
      rw [ih (c :: acc) hmem]
      simp [List.takeWhile, List.dropWhile, hcb]

/-- When the separator occurs, the dropped part starts with the
separator. -/
theorem dropWhile_eq_sep_cons (sep : Char) (l : List Char) (h : sep ∈ l) :
    l.dropWhile (fun c => !(c == sep)) =
      sep :: (l.dropWhile (fun c => !(c == sep))).drop 1 := by
  induction l with
  | nil => simp at h
  | cons c rest ih =>
    by_cases hc : c = sep
    · subst hc
      simp [List.dropWhile]
    · have hcb : (c == sep) = false := beq_eq_false_iff_ne.mpr hc
      have hmem : sep ∈ rest := by
        rcases List.mem_cons.mp h with h1 | h1
        · exact absurd h1.symm hc
        · exact h1
      simp only [List.dropWhile, hcb]
      exact ih hmem

/-- C8 (amended): parsing is deterministic, and total EXCEPT when the
locator starts with `s3://` and carries no `/` after the scheme, where it
raises `IndexError`.  Without the scheme the whole input is a bare key with
no bucket; with the scheme and a `/`, the bucket is everything before the
first `/` after the scheme and the key everything after it. -/
theorem extract_s3_key_amended (uri : List Char) :
    (strStartsWith uri ("s3://".toList) = false →
      extract_s3_key uri = .ok (none, uri, baseNameAux [] uri)) ∧
    (strStartsWith uri ("s3://".toList) = true → '/' ∈ uri.drop 5 →
      extract_s3_key uri =
        .ok (some ((uri.drop 5).takeWhile (fun c => !(c == '/'))),
             ((uri.drop 5).dropWhile (fun c => !(c == '/'))).drop 1,
             baseNameAux [] (((uri.drop 5).dropWhile (fun c => !(c == '/'))).drop 1)) ∧
      (uri.drop 5).takeWhile (fun c => !(c == '/')) ++
          '/' :: ((uri.drop 5).dropWhile (fun c => !(c == '/'))).drop 1 = uri.drop 5) ∧
    (strStartsWith uri ("s3://".toList) = true → '/' ∉ uri.drop 5 →
      extract_s3_key uri = .error "IndexError") := by
  refine ⟨?_, ?_, ?_⟩
  · intro hns
    unfold extract_s3_key
    rw [hns]
    rfl
  · intro hs hmem
    constructor
    · unfold extract_s3_key
      rw [hs]
      simp only [if_true]
      rw [splitFirstAux_mem '/' (uri.drop 5) [] hmem]
      rfl
    · have hd := dropWhile_eq_sep_cons '/' (uri.drop 5) hmem
      calc (uri.drop 5).takeWhile (fun c => !(c == '/')) ++
              '/' :: ((uri.drop 5).dropWhile (fun c => !(c == '/'))).drop 1
          = (uri.drop 5).takeWhile (fun c => !(c == '/')) ++
              (uri.drop 5).dropWhile (fun c => !(c == '/')) := by rw [← hd]
        _ = uri.drop 5 := List.takeWhile_append_dropWhile _ _
  · intro hs hmem
    unfold extract_s3_key
    rw [hs]
    simp only [if_true]
    rw [splitFirstAux_not_mem '/' (uri.drop 5) [] hmem]

/-- C8 witness: a well-formed locator splits at the first slash after the
scheme into bucket `bucket`, key `path/to/f.txt` and base name `f.txt`, and
an unprefixed locator is a bare key. -/
theorem extract_s3_key_amended_witness :
    (strStartsWith ("s3://bucket/path/to/f.txt".toList) ("s3://".toList) = true ∧
      '/' ∈ ("s3://bucket/path/to/f.txt".toList).drop 5 ∧
      extract_s3_key ("s3://bucket/path/to/f.txt".toList) =
        .ok (some ("bucket".toList), "path/to/f.txt".toList, "f.txt".toList)) ∧
    (strStartsWith ("plain/key.txt".toList) ("s3://".toList) = false ∧
      extract_s3_key ("plain/key.txt".toList) =
        .ok (none, "plain/key.txt".toList, "key.txt".toList)) := by
  constructor
  · refine ⟨by decide, by decide, ?_⟩
    have h := ((extract_s3_key_amended ("s3://bucket/path/to/f.txt".toList)).2.1
      (by decide) (by decide)).1
    rw [h]
    decide
  · refine ⟨by decide, ?_⟩
    have h := (extract_s3_key_amended ("plain/key.txt".toList)).1 (by decide)
    rw [h]
    decide

/-- When every part call succeeds, the upload loop numbers the parts
sequentially from its starting index and collects them in ascending
order, one per chunk, completing normally. -/
theorem runParts_all_ok (key : String) (uploadId : Nat) (partOk : Nat → Bool)
    (hok : ∀ n, partOk n = true) (chunks : List Nat) :
    ∀ n, runParts key uploadId partOk chunks n =
      (List.range' n chunks.length,
       (List.range' n chunks.length).map (fun i => S3Op.uploadPart key i uploadId),
       true) := by
  induction chunks with
  | nil =>
    intro n
    simp [runParts, List.range']
  | cons c rest ih =>
    intro n
    rw [runParts, hok n]
    simp only [if_true]
    rw [ih (n + 1)]
    simp [List.range'_succ]

/-- Every read the upload loop performs is at most the configured chunk
size (the final read may be shorter). -/
theorem chunkSizes_le (chunk size : Nat) : ∀ c ∈ chunkSizes chunk size, c ≤ chunk := by
  intro c hc
  unfold chunkSizes at hc
  rcases List.mem_map.mp hc with ⟨i, _, hi⟩
  rw [← hi]
  exact min_le_left _ _

/-- C6: with every part call succeeding, `upload_to_s3` performs one
multipart upload: initiate, one `upload_part` per 8 MiB chunk numbered
sequentially from 1, then exactly one completion call carrying the part
numbers in ascending order; each chunk read is at most 8 MiB. -/
theorem upload_splits_and_completes_in_order (bucket : String) (user_id : Nat)
    (filename : String) (size uploadId : Nat) (partOk : Nat → Bool)
    (hok : ∀ n, partOk n = true) :
    upload_to_s3 bucket user_id filename size uploadId true partOk true =
      .ok ⟨some ("s3://" ++ bucket ++ "/" ++ (toString user_id ++ "/" ++ filename)),
           S3Op.createMultipart (toString user_id ++ "/" ++ filename) ::
             (List.range' 1 (chunkSizes CHUNK_SIZE_BYTES size).length).map
               (fun i => S3Op.uploadPart (toString user_id ++ "/" ++ filename) i uploadId) ++
             [S3Op.completeMultipart (toString user_id ++ "/" ++ filename) uploadId
               (List.range' 1 (chunkSizes CHUNK_SIZE_BYTES size).length)]⟩ ∧
    (∀ c ∈ chunkSizes CHUNK_SIZE_BYTES size, c ≤ CHUNK_SIZE_BYTES) := by
  refine ⟨?_, chunkSizes_le _ _⟩
  unfold upload_to_s3
  simp only [if_true]
  rw [runParts_all_ok _ _ _ hok _ 1]
  rfl

/-- C6 witness: a 20 MiB source is read as chunks of 8 MiB, 8 MiB and
4 MiB, uploaded as parts 1, 2, 3, and completion is called once with
`[1, 2, 3]`. -/
theorem upload_splits_and_completes_in_order_witness :
    chunkSizes CHUNK_SIZE_BYTES (20 * 1024 * 1024) = [8388608, 8388608, 4194304] ∧
    upload_to_s3 "bkt" 7 "1/a.txt" (20 * 1024 * 1024) 9 true (fun _ => true) true =
      .ok ⟨some "s3://bkt/7/1/a.txt",
           [S3Op.createMultipart "7/1/a.txt",
            S3Op.uploadPart "7/1/a.txt" 1 9,
            S3Op.uploadPart "7/1/a.txt" 2 9,
            S3Op.uploadPart "7/1/a.txt" 3 9,
            S3Op.completeMultipart "7/1/a.txt" 9 [1, 2, 3]]⟩ := by
  refine ⟨by decide, ?_⟩
  have h := (upload_splits_and_completes_in_order "bkt" 7 "1/a.txt"
    (20 * 1024 * 1024) 9 (fun _ => true) (fun _ => rfl)).1
  rw [h]
  decide

/-- If any part in the range the loop will visit fails, the loop does not
complete. -/
theorem runParts_flag_false (key : String) (uploadId : Nat) (partOk : Nat → Bool)
    (chunks : List Nat) :
    ∀ n, (∃ i ∈ List.range' n chunks.length, partOk i = false) →
      (runParts key uploadId partOk chunks n).2.2 = false := by
  induction chunks with
  | nil =>
    intro n h
    simp [List.range'] at h
  | cons c rest ih =>
    intro n h
    rw [runParts]
    by_cases hn : partOk n = true
    · rw [hn]
      simp only [if_true]
      show (runParts key uploadId partOk rest (n + 1)).2.2 = false
      apply ih (n + 1)
      rcases h with ⟨i, hi, hifail⟩
      simp only [List.length_cons] at hi
      rw [List.range'_succ] at hi
      rcases List.mem_cons.mp hi with h1 | h1
      · subst h1
        rw [hn] at hifail
        exact absurd hifail (by simp)
      · exact ⟨i, h1, hifail⟩
    · have hnf : partOk n = false := by
        cases hv : partOk n
        · rfl
        · exact absurd hv hn
      rw [hnf]
      simp
/-- Every call the part loop makes is an `upload_part` with the loop's key
and upload id (in particular it never completes or aborts itself). -/
theorem runParts_ops_parts (key : String) (uploadId : Nat) (partOk : Nat → Bool)
    (chunks : List Nat) :
    ∀ n, ∀ op ∈ (runParts key uploadId partOk chunks n).2.1,
      ∃ i, op = S3Op.uploadPart key i uploadId := by
  induction chunks with
  | nil =>
    intro n op hop
    simp [runParts] at hop
  | cons c rest ih =>
    intro n op hop
    rw [runParts] at hop
    by_cases hn : partOk n = true
    · rw [hn] at hop
      simp only [if_true] at hop
      have hop2 : op ∈ S3Op.uploadPart key n uploadId ::
          (runParts key uploadId partOk rest (n + 1)).2.1 := hop
      rcases List.mem_cons.mp hop2 with h1 | h1
      · exact ⟨n, h1⟩
      · exact ih (n + 1) op h1
    · have hnf : partOk n = false := by
        cases hv : partOk n
        · rfl
        · exact absurd hv hn
      rw [hnf] at hop
      simp at hop
      exact ⟨n, hop⟩

/-- C3 (amended): when some part upload fails, `upload_to_s3` calls
`abort_multipart_upload` with the same upload id, but then RETURNS `None`
instead of raising: every exception is caught, the failure reaches the
caller only as the `None` result (which `handle_file_upload` turns into a
`failed` status), and no completion call is made. -/
theorem upload_aborts_and_returns_none_on_part_failure (bucket : String) (user_id : Nat)
    (filename : String) (size uploadId : Nat) (partOk : Nat → Bool) (completeOk : Bool)
    (hfail : ∃ i ∈ List.range' 1 (chunkSizes CHUNK_SIZE_BYTES size).length,
      partOk i = false) :
    ∃ partOps,
      upload_to_s3 bucket user_id filename size uploadId true partOk completeOk =
        .ok ⟨none,
             S3Op.createMultipart (toString user_id ++ "/" ++ filename) :: partOps ++
               [S3Op.abortMultipart (toString user_id ++ "/" ++ filename) uploadId]⟩ ∧
      ∀ op ∈ partOps,
        ∃ i, op = S3Op.uploadPart (toString user_id ++ "/" ++ filename) i uploadId := by
  have hflag := runParts_flag_false (toString user_id ++ "/" ++ filename) uploadId partOk
    (chunkSizes CHUNK_SIZE_BYTES size) 1 hfail
  refine ⟨(runParts (toString user_id ++ "/" ++ filename) uploadId partOk
    (chunkSizes CHUNK_SIZE_BYTES size) 1).2.1, ?_, ?_⟩
  · unfold upload_to_s3
    simp only [if_true]
    rw [hflag]
    rfl
  · exact runParts_ops_parts _ _ _ _ 1

/-- C3 counterexample: with part 1 failing, the upload aborts the multipart
upload (same upload id 9) but RETURNS normally with `None` — no exception,
hence no `UploadError`, reaches the caller; the failure is surfaced only
through the `None` result. -/
theorem upload_part_failure_swallowed :
    upload_to_s3 "bkt" 7 "1/a.txt" (20 * 1024 * 1024) 9 true (fun n => !(n == 1)) true =
      .ok ⟨none,
           [S3Op.createMultipart "7/1/a.txt", S3Op.uploadPart "7/1/a.txt" 1 9,
            S3Op.abortMultipart "7/1/a.txt" 9]⟩ := by
  decide

/-- C3 witness: instantiating the amended statement with part 2 of a
20 MiB upload failing. -/
theorem upload_aborts_and_returns_none_on_part_failure_witness :
    (∃ i ∈ List.range' 1 (chunkSizes CHUNK_SIZE_BYTES (20 * 1024 * 1024)).length,
      (fun n : Nat => !(n == 2)) i = false) ∧
    ∃ partOps,
      upload_to_s3 "bkt" 7 "1/a.txt" (20 * 1024 * 1024) 9 true
          (fun n => !(n == 2)) true =
        .ok ⟨none,
             S3Op.createMultipart (toString 7 ++ "/" ++ "1/a.txt") :: partOps ++
               [S3Op.abortMultipart (toString 7 ++ "/" ++ "1/a.txt") 9]⟩ ∧
      ∀ op ∈ partOps,
        ∃ i, op = S3Op.uploadPart (toString 7 ++ "/" ++ "1/a.txt") i 9 :=
  ⟨by decide,
   upload_aborts_and_returns_none_on_part_failure "bkt" 7 "1/a.txt"
     (20 * 1024 * 1024) 9 (fun n => !(n == 2)) true (by decide)⟩

/-- Shape of a successful `add_status` when the status is in the catalog
and the pair occurs at most once: some event comes back, the catalog and
the files are untouched, the pair now occurs exactly once, and counts of
other pairs of the file are unchanged. -/
theorem add_status_ok_shape (fid now : Nat) (st : FileStatus) (db : DB)
    (row : FileStatusRow)
    (hrow : find_by_name st.pyName db = some row)
    (hcount : pairCount fid row.id db ≤ 1) :
    ∃ ev db1,
      add_status fid st now db = .ok (some ev, db1) ∧
      db1.catalog = db.catalog ∧
      db1.files = db.files ∧
      pairCount fid row.id db1 = 1 ∧
      (∀ sid2, sid2 ≠ row.id → pairCount fid sid2 db1 = pairCount fid sid2 db) := by
  unfold pairCount at hcount
  rcases hl : db.history.filter (fun e => e.file_id == fid && e.status_id == row.id)
    with _ | ⟨e, _ | ⟨e2, tl2⟩⟩
  · refine ⟨⟨fid, row.id, now⟩,
      { db with history := db.history ++ [⟨fid, row.id, now⟩] }, ?_, rfl, rfl, ?_, ?_⟩
    · simp only [add_status, hrow, find_by_fileid_and_statusid, hl, one_or_none]
    · unfold pairCount
      show ((db.history ++ [(⟨fid, row.id, now⟩ : StatusEvent)]).filter _).length = 1
      rw [List.filter_append, hl]
      simp
    · intro sid2 hne
      have hb : (row.id == sid2) = false := beq_eq_false_iff_ne.mpr (Ne.symm hne)
      unfold pairCount
      show ((db.history ++ [(⟨fid, row.id, now⟩ : StatusEvent)]).filter _).length = _
      rw [List.filter_append]
      simp [List.filter, hb]
  · refine ⟨e, db, ?_, rfl, rfl, ?_, fun _ _ => rfl⟩
    · simp only [add_status, hrow, find_by_fileid_and_statusid, hl, one_or_none]
    · unfold pairCount
      rw [hl]
      rfl
  · rw [hl] at hcount
    simp at hcount

/-- `find_by_name` reads only the catalog. -/
theorem find_by_name_catalog_congr (n : String) (db1 db2 : DB)
    (h : db1.catalog = db2.catalog) : find_by_name n db1 = find_by_name n db2 := by
  unfold find_by_name
  rw [h]

/-- `find_by_id` reads only the files table. -/
theorem find_by_id_files_congr (fid : Nat) (db1 db2 : DB)
    (h : db1.files = db2.files) : find_by_id fid db1 = find_by_id fid db2 := by
  unfold find_by_id
  rw [h]

/-- Setting the path of file `fid` updates exactly the row that
`find_by_id` sees. -/
theorem set_path_find (fid : Nat) (p : String) (files : List FileRecord) (f : FileRecord)
    (hf : files.find? (fun g => g.id == fid) = some f) :
    (set_path fid p files).find? (fun g => g.id == fid) =
      some { f with path := some p } := by
  induction files with
  | nil => simp at hf
  | cons g rest ih =>
    by_cases hg : (g.id == fid) = true
    · have hfg : List.find? (fun x : FileRecord => x.id == fid) (g :: rest) = some g :=
        List.find?_cons_of_pos _ hg
      rw [hfg] at hf
      injection hf with hf
      subst hf
      unfold set_path
      simp only [List.map_cons, hg, if_true]
      exact List.find?_cons_of_pos _ hg
    · have hgf : (g.id == fid) = false := by
        cases hv : (g.id == fid)
        · rfl
        · exact absurd hv hg
      have hfg : List.find? (fun x : FileRecord => x.id == fid) (g :: rest) =
          List.find? (fun x : FileRecord => x.id == fid) rest :=
        List.find?_cons_of_neg _ (by simp [hgf])
      rw [hfg] at hf
      have hgoal : List.find? (fun x : FileRecord => x.id == fid)
          (g :: rest.map (fun q => if q.id == fid then { q with path := some p } else q)) =
          some { f with path := some p } := by
        have hskip : List.find? (fun x : FileRecord => x.id == fid)
            (g :: rest.map (fun q => if q.id == fid then { q with path := some p } else q)) =
            List.find? (fun x : FileRecord => x.id == fid)
              (rest.map (fun q => if q.id == fid then { q with path := some p } else q)) :=
          List.find?_cons_of_neg _ (by simp [hgf])
        rw [hskip]
        exact ih hf
      unfold set_path
      simp only [List.map_cons, hgf]
      exact hgoal

/-- `upload_to_s3` never lets an exception escape: every run returns `.ok`,
and a `some` result is always the canonical object path. -/
theorem upload_to_s3_total (bucket : String) (user_id : Nat) (filename : String)
    (size uploadId : Nat) (createOk : Bool) (partOk : Nat → Bool) (completeOk : Bool) :
    ∃ run,
      upload_to_s3 bucket user_id filename size uploadId createOk partOk completeOk =
        .ok run ∧
      (∀ p, run.result = some p →
        p = "s3://" ++ bucket ++ "/" ++ (toString user_id ++ "/" ++ filename)) := by
  unfold upload_to_s3
  cases createOk with
  | false =>
    refine ⟨_, rfl, ?_⟩
    intro p hp
    exact Option.noConfusion hp
  | true =>
    simp only [if_true]
    cases hflag : (runParts (toString user_id ++ "/" ++ filename) uploadId partOk
        (chunkSizes CHUNK_SIZE_BYTES size) 1).2.2 with
    | false =>
      refine ⟨_, rfl, ?_⟩
      intro p hp
      exact Option.noConfusion hp
    | true =>
      cases completeOk with
      | false =>
        refine ⟨_, rfl, ?_⟩
        intro p hp
        exact Option.noConfusion hp
      | true =>
        refine ⟨_, rfl, ?_⟩
        intro p hp
        exact (Option.some.inj hp).symm

/-- C4 (amended): on upload success `handle_file_upload` sets the File
Record's locator to the returned object path and records the status
`uploaded` (the code's terminal success status — not `completed`, which is
not even in the catalog); on failure it records `failed` and leaves the
locator untouched (still null). -/
theorem handle_file_upload_amended (fid size uploadId : Nat) (createOk : Bool)
    (partOk : Nat → Bool) (completeOk : Bool) (bucket up_filename : String)
    (now1 now2 : Nat) (db : DB) (f : FileRecord) (r1 r2 r3 : FileStatusRow)
    (hf : find_by_id fid db = some f)
    (hpath : f.path = none)
    (h1 : find_by_name FileStatus.uploading.pyName db = some r1)
    (h2 : find_by_name FileStatus.uploaded.pyName db = some r2)
    (h3 : find_by_name FileStatus.failed.pyName db = some r3)
    (hc1 : pairCount fid r1.id db ≤ 1)
    (hc2 : pairCount fid r2.id db ≤ 1)
    (hc3 : pairCount fid r3.id db ≤ 1)
    (hne21 : r2.id ≠ r1.id) (hne31 : r3.id ≠ r1.id) :
    ∃ db2 ops res,
      handle_file_upload fid size uploadId createOk partOk completeOk bucket
        up_filename now1 now2 db = .ok (db2, ops, res) ∧
      (∀ p, res = some p →
        p = "s3://" ++ bucket ++ "/" ++
              (toString f.user_id ++ "/" ++ (toString f.id ++ "/" ++ up_filename)) ∧
        find_by_id fid db2 = some { f with path := some p } ∧
        pairCount fid r2.id db2 = 1) ∧
      (res = none →
        find_by_id fid db2 = some f ∧ f.path = none ∧
        pairCount fid r3.id db2 = 1) := by
  obtain ⟨ev1, db1, h1eq, h1cat, h1files, h1cnt, h1other⟩ :=
    add_status_ok_shape fid now1 FileStatus.uploading db r1 h1 hc1
  obtain ⟨run, hrun, hres⟩ := upload_to_s3_total bucket f.user_id
    (toString f.id ++ "/" ++ up_filename) size uploadId createOk partOk completeOk
  have hf1 : find_by_id fid db1 = some f := by
    rw [find_by_id_files_congr fid db1 db h1files]
    exact hf
  have h2b : find_by_name FileStatus.uploaded.pyName db1 = some r2 := by
    rw [find_by_name_catalog_congr _ db1 db h1cat]
    exact h2
  have h3b : find_by_name FileStatus.failed.pyName db1 = some r3 := by
    rw [find_by_name_catalog_congr _ db1 db h1cat]
    exact h3
  have hc2b : pairCount fid r2.id db1 ≤ 1 := by
    rw [h1other r2.id hne21]
    exact hc2
  have hc3b : pairCount fid r3.id db1 ≤ 1 := by
    rw [h1other r3.id hne31]
    exact hc3
  rcases hrr : run.result with _ | p
  · -- upload returned None: record `failed`, leave the locator alone
    obtain ⟨ev2, db2, h2eq, h2cat, h2files, h2cnt, h2other⟩ :=
      add_status_ok_shape fid now2 FileStatus.failed db1 r3 h3b hc3b
    refine ⟨db2, run.ops, none, ?_, ?_, ?_⟩
    · simp only [handle_file_upload, hf, h1eq, hrun, hf1, hrr, h2eq]
    · intro p hp
      exact Option.noConfusion hp
    · intro _
      refine ⟨?_, hpath, h2cnt⟩
      rw [find_by_id_files_congr fid db2 db1 h2files]
      exact hf1
  · -- upload returned a path: record `uploaded`, then set the locator
    obtain ⟨ev2, db2, h2eq, h2cat, h2files, h2cnt, h2other⟩ :=
      add_status_ok_shape fid now2 FileStatus.uploaded db1 r2 h2b hc2b
    refine ⟨{ db2 with files := set_path fid p db2.files }, run.ops, some p, ?_, ?_, ?_⟩
    · simp only [handle_file_upload, hf, h1eq, hrun, hf1, hrr, h2eq]
    · intro q hq
      injection hq with hq
      subst hq
      refine ⟨hres p hrr, ?_, ?_⟩
      · have hfind2 : db2.files.find? (fun g => g.id == fid) = some f := by
          have hcongr := find_by_id_files_congr fid db2 db1 h2files
          unfold find_by_id at hcongr hf1
          rw [hcongr]
          exact hf1
        unfold find_by_id
        exact set_path_find fid p db2.files f hfind2
      · exact h2cnt
    · intro hq
      exact Option.noConfusion hq

/-- C4 counterexample: a successful concrete run records the status
`uploaded` (last status after the run), not `completed`; indeed the seeded
catalog contains no `completed` status at all, so no `completed` event can
ever be recorded. -/
theorem handle_file_upload_never_records_completed :
    handle_file_upload 1 (8 * 1024 * 1024) 42 true (fun _ => true) true "bkt" "a.txt" 10 20
        ⟨seededCatalog, [⟨1, 1, 0⟩], [⟨1, 7, none, "a.txt"⟩]⟩ =
      .ok (⟨seededCatalog, [⟨1, 1, 0⟩, ⟨1, 2, 10⟩, ⟨1, 3, 20⟩],
            [⟨1, 7, some "s3://bkt/7/1/a.txt", "a.txt"⟩]⟩,
           [S3Op.createMultipart "7/1/a.txt", S3Op.uploadPart "7/1/a.txt" 1 42,
            S3Op.completeMultipart "7/1/a.txt" 42 [1]],
           some "s3://bkt/7/1/a.txt") ∧
    last_status 1 ⟨seededCatalog, [⟨1, 1, 0⟩, ⟨1, 2, 10⟩, ⟨1, 3, 20⟩],
        [⟨1, 7, some "s3://bkt/7/1/a.txt", "a.txt"⟩]⟩ = some "uploaded" ∧
    (∀ row ∈ seededCatalog, row.name ≠ "completed") := by
  refine ⟨by decide, by decide, by decide⟩

/-- C4 witness: the amended statement instantiated on the concrete
successful run (file 1, owner 7, one 8 MiB chunk). -/
theorem handle_file_upload_amended_witness :
    ∃ db2 ops res,
      handle_file_upload 1 (8 * 1024 * 1024) 42 true (fun _ => true) true "bkt" "a.txt"
        10 20 ⟨seededCatalog, [⟨1, 1, 0⟩], [⟨1, 7, none, "a.txt"⟩]⟩ =
        .ok (db2, ops, res) ∧
      (∀ p, res = some p →
        p = "s3://" ++ "bkt" ++ "/" ++ (toString 7 ++ "/" ++ (toString 1 ++ "/" ++ "a.txt")) ∧
        find_by_id 1 db2 = some ⟨1, 7, some p, "a.txt"⟩ ∧
        pairCount 1 3 db2 = 1) ∧
      (res = none →
        find_by_id 1 db2 = some ⟨1, 7, none, "a.txt"⟩ ∧
        (none : Option String) = none ∧
        pairCount 1 5 db2 = 1) :=
  handle_file_upload_amended 1 (8 * 1024 * 1024) 42 true (fun _ => true) true "bkt" "a.txt"
    10 20 ⟨seededCatalog, [⟨1, 1, 0⟩], [⟨1, 7, none, "a.txt"⟩]⟩ ⟨1, 7, none, "a.txt"⟩
    ⟨2, "uploading"⟩ ⟨3, "uploaded"⟩ ⟨5, "failed"⟩
    (by decide) (by decide) (by decide) (by decide) (by decide)
    (by decide) (by decide) (by decide) (by decide) (by decide)

/-- C9: deleting a file whose current status is `failed` records exactly
one `deleted` event and makes zero calls to the object-store delete
endpoint; the files table is untouched and the only change is the single
appended event. -/
theorem delete_failed_file_records_deleted_without_s3 (s3ok : Bool)
    (fid uid now : Nat) (db : DB) (f : FileRecord) (row : FileStatusRow)
    (hf : find_by_id fid db = some f) (hu : f.user_id = uid)
    (hlast : last_status fid db = some "failed")
    (hrow : find_by_name FileStatus.deleted.pyName db = some row)
    (hcount : pairCount fid row.id db = 0) :
    delete_file s3ok fid uid now db =
      .ok ⟨.ok (), { db with history := db.history ++ [⟨fid, row.id, now⟩] }, 0⟩ ∧
    pairCount fid row.id { db with history := db.history ++ [⟨fid, row.id, now⟩] } = 1 := by
  have hfid : f.id = fid := by
    unfold find_by_id at hf
    simpa using List.find?_some hf
  have hfilter : db.history.filter (fun e => e.file_id == fid && e.status_id == row.id) = [] := by
    unfold pairCount at hcount
    exact List.length_eq_zero.mp hcount
  have hk : check_file_and_user fid uid db true false = .ok f := by
    unfold check_file_and_user
    rw [hf]
    simp [hu]
  constructor
  · simp only [delete_file, hk]
    rw [hfid, hlast]
    simp only [add_status, hrow, find_by_fileid_and_statusid, hfilter, one_or_none]
    rfl
  · unfold pairCount
    show ((db.history ++ [(⟨fid, row.id, now⟩ : StatusEvent)]).filter _).length = 1
    rw [List.filter_append, hfilter]
    simp

/-- C9 witness: file 1 has history `received` then `failed`; the delete
request by its owner appends one `deleted` event and performs no
object-store call. -/
theorem delete_failed_file_records_deleted_without_s3_witness :
    delete_file true 1 7 9
        ⟨seededCatalog, [⟨1, 1, 0⟩, ⟨1, 5, 5⟩], [⟨1, 7, none, "a.txt"⟩]⟩ =
      .ok ⟨.ok (),
           ⟨seededCatalog, [⟨1, 1, 0⟩, ⟨1, 5, 5⟩, ⟨1, 6, 9⟩], [⟨1, 7, none, "a.txt"⟩]⟩, 0⟩ ∧
    pairCount 1 6
        ⟨seededCatalog, [⟨1, 1, 0⟩, ⟨1, 5, 5⟩, ⟨1, 6, 9⟩], [⟨1, 7, none, "a.txt"⟩]⟩ = 1 :=
  delete_failed_file_records_deleted_without_s3 true 1 7 9
    ⟨seededCatalog, [⟨1, 1, 0⟩, ⟨1, 5, 5⟩], [⟨1, 7, none, "a.txt"⟩]⟩
    ⟨1, 7, none, "a.txt"⟩ ⟨6, "deleted"⟩
    (by decide) (by decide) (by decide) (by decide) (by decide)
